import Mathlib

/-!
Shallow embedding of the usd-rate-chart data-acquisition core (src/main.go):
a TTL cache, a locale-aware rate parser, an XML fetch pipeline and the
currency-service queries built on them.  Time is modelled as an integer
number of seconds, network behaviour as an explicit oracle argument, and
the double-precision rate values as exact rationals (the decimal numbers
denoted by the strings, before rounding to binary floating point).
-/

namespace UsdRateChart

/-! ### Constants (src/main.go lines 20-25) -/

/-- URL of the daily snapshot endpoint (`dailyRatesURL`). -/
def dailyRatesURL : String := "https://www.cbr.ru/scripts/XML_daily.asp"

/-- Head of the historical-query URL (`dynamicRatesURL` up to the first `%s`). -/
def dynamicRatesURLHead : String :=
  "https://www.cbr.ru/scripts/XML_dynamic.asp?date_req1="

/-- Middle part of the historical-query URL (between the two `%s`). -/
def dynamicRatesURLMid : String := "&date_req2="

/-- Tail of the historical-query URL (after the second `%s`). -/
def dynamicRatesURLTail : String := "&VAL_NM_RQ=R01235"

/-- Cache TTL `cacheExpiration = 1 * time.Hour`, in seconds. -/
def cacheExpiration : Int := 3600

/-- HTTP status `http.StatusOK`. -/
def httpStatusOK : Nat := 200

/-! ### Data model (src/main.go lines 27-46) -/

/-- One currency entry of the daily snapshot (`Valute`). -/
structure Valute where
  CharCode : String
  Value : String
deriving DecidableEq, Repr

/-- One entry of the historical series (`Record`). -/
structure Record where
  Date : String
  Value : String
deriving DecidableEq, Repr

/-- The parsed remote XML document (`ValCurs`): a date attribute, the
daily-snapshot entries and the historical-series entries. -/
structure ValCurs where
  Date : String
  Valutes : List Valute
  Records : List Record
deriving DecidableEq, Repr

/-- A public history point (`RateHistory`); the rate is the exact rational
denoted by the upstream decimal string. -/
structure RateHistory where
  Date : String
  Rate : ℚ
deriving DecidableEq, Repr

/-! ### TTL cache (src/main.go lines 48-80)

The Go `Cache` holds two maps, `data : map[string]interface{}` and
`expiration : map[string]time.Time`; both are modelled as functions into
`Option`.  The mutex only serialises accesses and has no sequential
behaviour, so it is not modelled. -/

/-- State of the TTL cache: the `data` and `expiration` maps. -/
structure Cache (α : Type) where
  data : String → Option α
  expiration : String → Option Int

/-- The cache produced by `NewCache()`: both maps empty. -/
def NewCache {α : Type} : Cache α := ⟨fun _ => none, fun _ => none⟩

/-- `Cache.Get` at time `now`: `found = false` when the key has no stored
expiration or `time.Now().After(exp)` holds (strictly after); otherwise the
`data` map is consulted.  `none` models `(nil, false)`. -/
def Cache.Get {α : Type} (c : Cache α) (now : Int) (key : String) : Option α :=
  match c.expiration key with
  | none => none
  | some exp => if exp < now then none else c.data key

/-- `Cache.Set` at time `now`: stores `value` and `expiresAt = now + ttl`,
overwriting both maps at `key` unconditionally. -/
def Cache.Set {α : Type} (c : Cache α) (now : Int) (key : String) (value : α)
    (ttl : Int) : Cache α :=
  ⟨fun k => if k = key then some value else c.data k,
   fun k => if k = key then some (now + ttl) else c.expiration k⟩

/-! ### Network oracle and fetch errors -/

/-- Behaviour of the environment for one network attempt: request
construction fails, `client.Do` fails (transport error or timeout), or a
response arrives with a status code and an XML-decode outcome for its body. -/
inductive NetBehavior where
  | buildFail : NetBehavior
  | doFail : NetBehavior
  | resp (status : Nat) (decode : Except Unit ValCurs) : NetBehavior

/-- The error cases of `fetchXML`: request construction, send/timeout,
non-OK status (carrying the status code, as in
`fmt.Errorf("unexpected status code: %d", resp.StatusCode)`), and XML
decoding. -/
inductive FetchErr where
  | requestFailed : FetchErr
  | sendFailed : FetchErr
  | badStatus (code : Nat) : FetchErr
  | parseFailed : FetchErr
deriving DecidableEq, Repr

/-! ### XML fetch pipeline (src/main.go lines 96-132) -/

/-- `fetchXML(url)` at time `now` with network oracle `net`.  Returns the
result, the cache after the call, and the number of network requests
performed (invocations of `client.Do`).  On a cache hit the cached document
is returned at once; on a miss the request is attempted, the status code is
compared against exactly `http.StatusOK`, the body is decoded, and only a
fully successful fetch stores the document with TTL `cacheExpiration`. -/
def fetchXML (c : Cache ValCurs) (now : Int) (url : String)
    (net : NetBehavior) : Except FetchErr ValCurs × Cache ValCurs × Nat :=
  match c.Get now url with
  | some doc => (.ok doc, c, 0)
  | none =>
    match net with
    | .buildFail => (.error .requestFailed, c, 0)
    | .doFail => (.error .sendFailed, c, 1)
    | .resp status decode =>
      if status = httpStatusOK then
        match decode with
        | .error _ => (.error .parseFailed, c, 1)
        | .ok doc => (.ok doc, c.Set now url doc cacheExpiration, 1)
      else
        (.error (.badStatus status), c, 1)

/-! ### Rate parser (src/main.go lines 184-191)

`parseRate` replaces the first comma by a dot (`strings.Replace(s, ",", ".", 1)`)
and calls `strconv.ParseFloat(s, 64)`.  `ParseFloat` is standard-library
code; it is modelled on its plain decimal subset (optional sign, decimal
digits with an optional fraction part, optional decimal exponent), which is
the syntax the upstream feed and the spec exercise, with the parsed value
kept as the exact rational the string denotes. -/

/-- Parse error of the rate parser. -/
inductive ParseErr where
  | invalid : ParseErr
deriving DecidableEq, Repr

/-- Replace the first `,` of a character list by `.` — the list form of
`strings.Replace(s, ",", ".", 1)`. -/
def replaceFirstComma : List Char → List Char
  | [] => []
  | c :: rest => if c = ',' then '.' :: rest else c :: replaceFirstComma rest

/-- Split a leading run of decimal digits off a character list. -/
def takeDigits : List Char → List Char × List Char
  | [] => ([], [])
  | c :: rest =>
    if c.isDigit then
      let (ds, r) := takeDigits rest
      (c :: ds, r)
    else
      ([], c :: rest)

/-- Numeric value of a digit run (most significant first). -/
def digitsToNat (ds : List Char) : Nat :=
  ds.foldl (fun acc c => 10 * acc + (c.toNat - 48)) 0

/-- Leading optional sign of a numeric string. -/
def splitSign : List Char → ℚ × List Char
  | '+' :: rest => (1, rest)
  | '-' :: rest => (-1, rest)
  | cs => (1, cs)

/-- Decimal subset of `strconv.ParseFloat(s, 64)`, as an exact rational:
optional sign, digits with an optional `.` fraction, an optional `e`/`E`
exponent; anything else (empty string, stray characters, a second
separator) is rejected. -/
def parseFloatQ (s : String) : Except ParseErr ℚ :=
  let (sgn, cs) := splitSign s.data
  let (ip, cs) := takeDigits cs
  let (fp, cs) :=
    match cs with
    | '.' :: rest => takeDigits rest
    | rest => ([], rest)
  if ip.isEmpty && fp.isEmpty then .error .invalid
  else
    let mant : ℚ := (digitsToNat ip : ℚ) + (digitsToNat fp : ℚ) / 10 ^ fp.length
    match cs with
    | [] => .ok (sgn * mant)
    | 'e' :: rest =>
      let (esgn, rest) := splitSign rest
      let (ed, rest) := takeDigits rest
      if ed.isEmpty || !rest.isEmpty then .error .invalid
      else .ok (sgn * mant * 10 ^ (esgn.num * (digitsToNat ed : Int)))
    | 'E' :: rest =>
      let (esgn, rest) := splitSign rest
      let (ed, rest) := takeDigits rest
      if ed.isEmpty || !rest.isEmpty then .error .invalid
      else .ok (sgn * mant * 10 ^ (esgn.num * (digitsToNat ed : Int)))
    | _ => .error .invalid

/-- `parseRate`: normalize the first comma to a dot, then parse as a
floating-point number. -/
def parseRate (s : String) : Except ParseErr ℚ :=
  parseFloatQ (String.mk (replaceFirstComma s.data))

/-! ### Civil dates (src/main.go lines 162-164)

`time.Now()` and `AddDate(0, 0, -7)` work on absolute instants; only the
calendar date matters here, so a moment is modelled by its civil day
number (days since 1970-01-01).  `AddDate(0, 0, -7)` subtracts exactly
seven civil days.  `civilFromDays` recovers `(year, month, day)` from a day
number by the standard era-based algorithm, standing in for the calendar
arithmetic inside Go `time`. -/

/-- Convert a civil day number (days since 1970-01-01) to
`(year, month, day)` in the proleptic Gregorian calendar. -/
def civilFromDays (z0 : Nat) : Nat × Nat × Nat :=
  let z := z0 + 719468
  let era := z / 146097
  let doe := z % 146097
  let yoe := (doe - doe / 1460 + doe / 36524 - doe / 146096) / 365
  let doy := doe - (365 * yoe + yoe / 4 - yoe / 100)
  let mp := (5 * doy + 2) / 153
  let d := doy - (153 * mp + 2) / 5 + 1
  let m := if mp < 10 then mp + 3 else mp - 9
  let y := yoe + era * 400 + (if m ≤ 2 then 1 else 0)
  (y, m, d)

/-- The decimal digit character for `n < 10`. -/
def digitChar (n : Nat) : Char := Char.ofNat (48 + n)

/-- Two-digit zero-padded rendering of `n` (for `n ≤ 99`), as Go layout
`02` / `01` renders day and month. -/
def pad2 (n : Nat) : List Char := [digitChar (n / 10 % 10), digitChar (n % 10)]

/-- Four-digit zero-padded rendering of `n` (for `n ≤ 9999`), as Go layout
`2006` renders the year. -/
def pad4 (n : Nat) : List Char :=
  [digitChar (n / 1000 % 10), digitChar (n / 100 % 10),
   digitChar (n / 10 % 10), digitChar (n % 10)]

/-- Render a `(year, month, day)` triple in Go layout `"02.01.2006"`,
i.e. `DD.MM.YYYY`. -/
def formatDate02012006 (ymd : Nat × Nat × Nat) : String :=
  String.mk (pad2 ymd.2.2 ++ '.' :: pad2 ymd.2.1 ++ '.' :: pad4 ymd.1)

/-- Check that a string has the `DD.MM.YYYY` shape: ten characters, digits
everywhere except dots at positions 2 and 5. -/
def matchesDDMMYYYY (s : String) : Bool :=
  match s.data with
  | [d1, d2, s1, m1, m2, s2, y1, y2, y3, y4] =>
    d1.isDigit && d2.isDigit && s1 == '.' && m1.isDigit && m2.isDigit &&
      s2 == '.' && y1.isDigit && y2.isDigit && y3.isDigit && y4.isDigit
  | _ => false

/-- `startDate := now.AddDate(0, 0, -7).Format("02.01.2006")`. -/
def historyStartDate (today : Nat) : String :=
  formatDate02012006 (civilFromDays (today - 7))

/-- `endDate := now.Format("02.01.2006")`. -/
def historyEndDate (today : Nat) : String :=
  formatDate02012006 (civilFromDays today)

/-- `url := fmt.Sprintf(dynamicRatesURL, startDate, endDate)`. -/
def historyURL (today : Nat) : String :=
  dynamicRatesURLHead ++ historyStartDate today ++ dynamicRatesURLMid ++
    historyEndDate today ++ dynamicRatesURLTail

/-! ### Currency service (src/main.go lines 134-182) -/

/-- Service-level errors: a propagated fetch error, a propagated parse
error of the USD value, or `errors.New("USD rate not found")`. -/
inductive RateError where
  | fetch (e : FetchErr) : RateError
  | parse (e : ParseErr) : RateError
  | notFound : RateError
deriving DecidableEq, Repr

/-- The scan loop of `GetUsdRate`: the first valute whose `CharCode` equals
`"USD"` (exact, case-sensitive) has its value parsed and returned; if none
matches the loop falls through to the not-found error. -/
def usdFromValutes : List Valute → Except RateError ℚ
  | [] => .error .notFound
  | v :: rest =>
    if v.CharCode = "USD" then
      match parseRate v.Value with
      | .ok rate => .ok rate
      | .error e => .error (.parse e)
    else
      usdFromValutes rest

/-- `GetUsdRate()`: fetch the daily snapshot (via `GetDailyRates`, i.e.
`fetchXML(dailyRatesURL)`), propagate its error, otherwise scan the
valutes for USD. -/
def GetUsdRate (c : Cache ValCurs) (now : Int) (net : NetBehavior) :
    Except RateError ℚ × Cache ValCurs × Nat :=
  match fetchXML c now dailyRatesURL net with
  | (.error e, c1, n) => (.error (.fetch e), c1, n)
  | (.ok doc, c1, n) => (usdFromValutes doc.Valutes, c1, n)

/-- The mapping loop of `GetUsdRatesHistory`: each record's value goes
through `parseRate`; failures `continue` (the record is dropped), successes
append `{Date, Rate}` in order. -/
def historyFromRecords : List Record → List RateHistory
  | [] => []
  | r :: rest =>
    match parseRate r.Value with
    | .error _ => historyFromRecords rest
    | .ok rate => ⟨r.Date, rate⟩ :: historyFromRecords rest

/-- `GetUsdRatesHistory()` on the civil day `today` at cache time `now`:
build the date-ranged URL, fetch it, propagate a fetch error, otherwise
map the records through the parser dropping failures.  A nil Go slice and
an empty one are both the empty list. -/
def GetUsdRatesHistory (c : Cache ValCurs) (now : Int) (today : Nat)
    (net : NetBehavior) :
    Except FetchErr (List RateHistory) × Cache ValCurs × Nat :=
  match fetchXML c now (historyURL today) net with
  | (.error e, c1, n) => (.error e, c1, n)
  | (.ok doc, c1, n) => (.ok (historyFromRecords doc.Records), c1, n)

end UsdRateChart

/-!
## Supporting lemmas

Characterizations of the fetch pipeline's branches and of the date
rendering, shared by the claim theorems below.
-/

namespace UsdRateChart

/-- A cache hit returns the cached document with no network request. -/
theorem fetchXML_hit (c : Cache ValCurs) (now : Int) (url : String)
    (net : NetBehavior) (doc : ValCurs) (h : c.Get now url = some doc) :
    fetchXML c now url net = (.ok doc, c, 0) := by
  unfold fetchXML
  rw [h]

/-- A miss whose request cannot be constructed fails before any request. -/
theorem fetchXML_miss_buildFail (c : Cache ValCurs) (now : Int)
    (url : String) (h : c.Get now url = none) :
    fetchXML c now url .buildFail = (.error .requestFailed, c, 0) := by
  unfold fetchXML
  rw [h]

/-- A miss whose send fails (transport error or timeout) leaves the cache
unchanged after one request. -/
theorem fetchXML_miss_doFail (c : Cache ValCurs) (now : Int)
    (url : String) (h : c.Get now url = none) :
    fetchXML c now url .doFail = (.error .sendFailed, c, 1) := by
  unfold fetchXML
  rw [h]

/-- A miss answered with status 200 and a well-formed body stores the
document under `url` with TTL `cacheExpiration` and returns it. -/
theorem fetchXML_miss_resp_ok (c : Cache ValCurs) (now : Int)
    (url : String) (d : ValCurs) (h : c.Get now url = none) :
    fetchXML c now url (.resp httpStatusOK (.ok d)) =
      (.ok d, c.Set now url d cacheExpiration, 1) := by
  unfold fetchXML
  rw [h]
  simp

/-- A miss answered with status 200 but a malformed body fails with a
decode error and leaves the cache unchanged. -/
theorem fetchXML_miss_resp_decodeFail (c : Cache ValCurs) (now : Int)
    (url : String) (u : Unit) (h : c.Get now url = none) :
    fetchXML c now url (.resp httpStatusOK (.error u)) =
      (.error .parseFailed, c, 1) := by
  unfold fetchXML
  rw [h]
  simp

/-- A miss answered with any status other than 200 fails with that status
in the error and leaves the cache unchanged. -/
theorem fetchXML_miss_resp_badStatus (c : Cache ValCurs) (now : Int)
    (url : String) (status : Nat) (dec : Except Unit ValCurs)
    (h : c.Get now url = none) (hs : status ≠ httpStatusOK) :
    fetchXML c now url (.resp status dec) =
      (.error (.badStatus status), c, 1) := by
  unfold fetchXML
  rw [h]
  simp [if_neg hs]

/-- `Get` after `Set` on the same key succeeds while `now + ttl` has not
strictly passed. -/
theorem Cache.Get_after_Set {α : Type} (c : Cache α) (now now2 : Int)
    (k : String) (v : α) (ttl : Int) (h : ¬ now + ttl < now2) :
    (c.Set now k v ttl).Get now2 k = some v := by
  unfold Cache.Get Cache.Set
  simp [h]

/-- The digit character of `k < 10` really is a digit. -/
theorem isDigit_digitChar (k : Nat) (hk : k < 10) :
    (digitChar k).isDigit = true := by
  interval_cases k <;> rfl

/-- Digit characters extracted via `% 10` are digits. -/
theorem isDigit_digitChar_mod (x : Nat) : (digitChar (x % 10)).isDigit = true :=
  isDigit_digitChar (x % 10) (Nat.mod_lt x (by norm_num))

/-- Every rendered date has the `DD.MM.YYYY` shape. -/
theorem matchesDDMMYYYY_format (ymd : Nat × Nat × Nat) :
    matchesDDMMYYYY (formatDate02012006 ymd) = true := by
  simp [matchesDDMMYYYY, formatDate02012006, pad2, pad4, isDigit_digitChar_mod]

/-- The month and day produced by `civilFromDays` are in calendar range,
so their two-digit renderings are faithful. -/
theorem civilFromDays_bounds (z : Nat) :
    1 ≤ (civilFromDays z).2.1 ∧ (civilFromDays z).2.1 ≤ 12 ∧
    1 ≤ (civilFromDays z).2.2 ∧ (civilFromDays z).2.2 ≤ 31 := by
  simp only [civilFromDays]
  split_ifs <;> omega

/-- The code of a digit character. -/
theorem toNat_digitChar (k : Nat) (hk : k < 10) :
    (digitChar k).toNat = 48 + k := by
  interval_cases k <;> rfl

/-- A two-digit rendering denotes its input when it fits. -/
theorem digitsToNat_pad2 (n : Nat) (h : n ≤ 99) : digitsToNat (pad2 n) = n := by
  have h1 := toNat_digitChar (n / 10 % 10) (Nat.mod_lt _ (by norm_num))
  have h2 := toNat_digitChar (n % 10) (Nat.mod_lt _ (by norm_num))
  simp [digitsToNat, pad2, h1, h2]
  omega

/-- A four-digit rendering denotes its input when it fits. -/
theorem digitsToNat_pad4 (n : Nat) (h : n ≤ 9999) :
    digitsToNat (pad4 n) = n := by
  have h1 := toNat_digitChar (n / 1000 % 10) (Nat.mod_lt _ (by norm_num))
  have h2 := toNat_digitChar (n / 100 % 10) (Nat.mod_lt _ (by norm_num))
  have h3 := toNat_digitChar (n / 10 % 10) (Nat.mod_lt _ (by norm_num))
  have h4 := toNat_digitChar (n % 10) (Nat.mod_lt _ (by norm_num))
  simp [digitsToNat, pad4, h1, h2, h3, h4]
  omega

/-- Mapping a record list all of whose values fail to parse yields the
empty history. -/
theorem historyFromRecords_nil_of_all_fail (rs : List Record)
    (hall : ∀ r ∈ rs, parseRate r.Value = .error .invalid) :
    historyFromRecords rs = [] := by
  induction rs with
  | nil => rfl
  | cons r rest ih =>
    simp only [historyFromRecords]
    rw [hall r (by simp)]
    exact ih (fun x hx => hall x (by simp [hx]))

end UsdRateChart

/-!
## Claim theorems
-/

namespace UsdRateChart

/-- Claim C1: for every URL, two consecutive fetch calls within the TTL
window perform exactly one network request — a first successful
`fetchXML(url)` on a cache miss returns the decoded document, performs one
request, and stores the document under `url` with expiry `t1 +
cacheExpiration` (one hour); a second call at any time `t2` within that
window returns the same, already-typed document from the cache with zero
further requests and no cache change, whatever the network would answer. -/
theorem fetch_idempotent (c : Cache ValCurs) (t1 t2 : Int) (url : String)
    (d : ValCurs) (net2 : NetBehavior)
    (hmiss : c.Get t1 url = none) (hwin : t2 ≤ t1 + cacheExpiration) :
    (fetchXML c t1 url (.resp httpStatusOK (.ok d))).1 = .ok d ∧
    (fetchXML c t1 url (.resp httpStatusOK (.ok d))).2.2 = 1 ∧
    (fetchXML c t1 url (.resp httpStatusOK (.ok d))).2.1.data url = some d ∧
    (fetchXML c t1 url (.resp httpStatusOK (.ok d))).2.1.expiration url =
      some (t1 + cacheExpiration) ∧
    (fetchXML ((fetchXML c t1 url (.resp httpStatusOK (.ok d))).2.1) t2 url
      net2).1 = .ok d ∧
    (fetchXML ((fetchXML c t1 url (.resp httpStatusOK (.ok d))).2.1) t2 url
      net2).2.2 = 0 ∧
    (fetchXML ((fetchXML c t1 url (.resp httpStatusOK (.ok d))).2.1) t2 url
      net2).2.1 = (fetchXML c t1 url (.resp httpStatusOK (.ok d))).2.1 := by
  have h1 := fetchXML_miss_resp_ok c t1 url d hmiss
  have hhit : (c.Set t1 url d cacheExpiration).Get t2 url = some d :=
    Cache.Get_after_Set c t1 t2 url d cacheExpiration (by omega)
  have h2 := fetchXML_hit (c.Set t1 url d cacheExpiration) t2 url net2 d hhit
  rw [h1, h2]
  exact ⟨rfl, rfl, by simp [Cache.Set], by simp [Cache.Set], rfl, rfl, rfl⟩

/-- Witness for C1 at a concrete miss followed by a hit at the window edge. -/
theorem fetch_idempotent_witness :
    (fetchXML NewCache 0 "u" (.resp httpStatusOK (.ok ⟨"d", [], []⟩))).1 =
      .ok ⟨"d", [], []⟩ ∧
    (fetchXML NewCache 0 "u" (.resp httpStatusOK (.ok ⟨"d", [], []⟩))).2.2 = 1 ∧
    (fetchXML ((fetchXML NewCache 0 "u"
        (.resp httpStatusOK (.ok ⟨"d", [], []⟩))).2.1) 3600 "u" .doFail).1 =
      .ok ⟨"d", [], []⟩ ∧
    (fetchXML ((fetchXML NewCache 0 "u"
        (.resp httpStatusOK (.ok ⟨"d", [], []⟩))).2.1) 3600 "u" .doFail).2.2 = 0 := by
  have h := fetch_idempotent NewCache 0 3600 "u" ⟨"d", [], []⟩ .doFail rfl
    (by norm_num [cacheExpiration])
  exact ⟨h.1, h.2.1, h.2.2.2.2.1, h.2.2.2.2.2.1⟩

/-- Claim C2 counterexample: `Get` does not return `found = false` at a
time that is exactly the stored expiration instant — a key set at time 0
with TTL 10 is still returned by `Get` at time 10, refuting "at or after
the stored expiration instant". -/
theorem cacheGet_at_expiry_cex :
    ¬ (∀ (c : Cache Nat) (now : Int) (k : String) (exp : Int),
        c.expiration k = some exp → exp ≤ now → c.Get now k = none) := by
  intro h
  have hexp : ((NewCache : Cache Nat).Set 0 "k" 1 10).expiration "k" = some 10 := by
    simp [Cache.Set]
  have := h (NewCache.Set 0 "k" 1 10) 10 "k" 10 hexp (by norm_num)
  simp [Cache.Get, Cache.Set, NewCache] at this

/-- Claim C2 as amended: `Get(key)` returns `found = false` (no value) if
the key was never set — a fresh cache, or one whose expiration map has no
entry for the key — or if the current time is strictly after the stored
expiration instant; at the instant itself the entry is still returned. -/
theorem cacheGet_miss (c : Cache Nat) (now now2 : Int) (k : String)
    (v : Nat) (ttl : Int) :
    (NewCache : Cache Nat).Get now k = none ∧
    (c.expiration k = none → c.Get now k = none) ∧
    (now + ttl < now2 → (c.Set now k v ttl).Get now2 k = none) := by
  refine ⟨rfl, fun h => by simp [Cache.Get, h], fun h => ?_⟩
  simp [Cache.Get, Cache.Set]
  omega

/-- Witness for the amended C2: never-set key, and a key read after its
TTL has strictly elapsed. -/
theorem cacheGet_miss_witness :
    (NewCache : Cache Nat).Get 0 "k" = none ∧
    ((NewCache : Cache Nat).Set 0 "k" 1 10).Get 20 "k" = none :=
  ⟨(cacheGet_miss NewCache 0 20 "k" 1 10).1,
   (cacheGet_miss NewCache 0 20 "k" 1 10).2.2 (by norm_num)⟩

/-- Claim C3: `Set(k, v, ttl)` with positive `ttl` stores `v` in the data
map and `now + ttl` in the expiration map, overwriting any prior entry
unconditionally, and an immediate `Get(k)` returns `(v, true)`. -/
theorem cacheSet_then_get (c : Cache Nat) (now : Int) (k : String)
    (v : Nat) (ttl : Int) (h : 0 < ttl) :
    (c.Set now k v ttl).data k = some v ∧
    (c.Set now k v ttl).expiration k = some (now + ttl) ∧
    (c.Set now k v ttl).Get now k = some v := by
  refine ⟨by simp [Cache.Set], by simp [Cache.Set], ?_⟩
  simp [Cache.Get, Cache.Set]
  omega

/-- Witness for C3 at a concrete key, value and TTL. -/
theorem cacheSet_then_get_witness :
    ((NewCache : Cache Nat).Set 0 "k" 5 10).Get 0 "k" = some 5 :=
  (cacheSet_then_get NewCache 0 "k" 5 10 (by norm_num)).2.2

/-- Claim C4: a `fetchXML` call that fails at any stage — request
construction, send/timeout, non-success status, or XML decoding — returns
the cache completely unchanged, so any prior entry for the key is
untouched and no new one is populated. -/
theorem fetch_failure_preserves_cache (c : Cache ValCurs) (now : Int)
    (url : String) (net : NetBehavior) (e : FetchErr)
    (h : (fetchXML c now url net).1 = .error e) :
    (fetchXML c now url net).2.1 = c := by
  cases hg : c.Get now url with
  | some doc =>
    rw [fetchXML_hit c now url net doc hg] at h
    exact absurd h (by simp)
  | none =>
    cases net with
    | buildFail => rw [fetchXML_miss_buildFail c now url hg]
    | doFail => rw [fetchXML_miss_doFail c now url hg]
    | resp status dec =>
      by_cases hs : status = httpStatusOK
      · subst hs
        cases dec with
        | error u => rw [fetchXML_miss_resp_decodeFail c now url u hg]
        | ok doc =>
          rw [fetchXML_miss_resp_ok c now url doc hg] at h
          exact absurd h (by simp)
      · rw [fetchXML_miss_resp_badStatus c now url status dec hg hs]

/-- Witness for C4: a timed-out send on an empty cache leaves it empty. -/
theorem fetch_failure_preserves_cache_witness :
    (fetchXML NewCache 0 "u" .doFail).2.1 = (NewCache : Cache ValCurs) :=
  fetch_failure_preserves_cache NewCache 0 "u" .doFail .sendFailed
    (by rw [fetchXML_miss_doFail NewCache 0 "u" rfl])

/-- Claim C5 counterexample: a response with status 201 — a success (2xx)
status — and a perfectly well-formed body still makes `fetchXML` fail,
refuting "succeeds past the status check for every 2xx status"; the code
compares against exactly `http.StatusOK`. -/
theorem fetch_status_201_cex :
    (fetchXML NewCache 0 "u" (.resp 201 (.ok ⟨"d", [], []⟩))).1 =
      .error (.badStatus 201) := by
  rw [fetchXML_miss_resp_badStatus NewCache 0 "u" 201
    (.ok ⟨"d", [], []⟩) rfl (by norm_num [httpStatusOK])]

/-- Claim C5 as amended: on a cache miss, `fetchXML` fails with a
`FetchErr` carrying the specific status code whenever the response status
is not exactly 200 (`http.StatusOK`) — including 2xx statuses other than
200 — and proceeds past the status check to XML decoding only for
status 200. -/
theorem fetch_status_check (c : Cache ValCurs) (now : Int) (url : String)
    (status : Nat) (dec : Except Unit ValCurs)
    (hmiss : c.Get now url = none) :
    (status ≠ httpStatusOK →
      (fetchXML c now url (.resp status dec)).1 = .error (.badStatus status)) ∧
    (status = httpStatusOK →
      (fetchXML c now url (.resp status dec)).1 =
        match dec with
        | .ok doc => .ok doc
        | .error _ => .error .parseFailed) := by
  constructor
  · intro hne
    rw [fetchXML_miss_resp_badStatus c now url status dec hmiss hne]
  · intro heq
    subst heq
    cases dec with
    | error u => rw [fetchXML_miss_resp_decodeFail c now url u hmiss]
    | ok doc => rw [fetchXML_miss_resp_ok c now url doc hmiss]

/-- Witness for the amended C5 at statuses 404 and 200. -/
theorem fetch_status_check_witness :
    (fetchXML NewCache 0 "u" (.resp 404 (.ok ⟨"d", [], []⟩))).1 =
      .error (.badStatus 404) ∧
    (fetchXML NewCache 0 "u" (.resp httpStatusOK (.ok ⟨"d", [], []⟩))).1 =
      .ok ⟨"d", [], []⟩ :=
  ⟨(fetch_status_check NewCache 0 "u" 404 (.ok ⟨"d", [], []⟩) rfl).1
      (by norm_num [httpStatusOK]),
   (fetch_status_check NewCache 0 "u" httpStatusOK
      (.ok ⟨"d", [], []⟩) rfl).2 rfl⟩

/-- Claim C6: on a successfully fetched daily snapshot `GetUsdRate` applies
the in-order scan `usdFromValutes`; that scan returns the parsed value of
the first entry whose `CharCode` is exactly `"USD"` (case-sensitive, first
match wins, parse failures propagated) and fails with the not-found error
when no entry matches; on the snapshot `{EUR, "100,00"}, {USD, "91,23"}`
it returns `91.23`. -/
theorem getUsdRate_spec (c : Cache ValCurs) (now : Int) (net : NetBehavior)
    (doc : ValCurs) (vs : List Valute) :
    ((fetchXML c now dailyRatesURL net).1 = .ok doc →
      (GetUsdRate c now net).1 = usdFromValutes doc.Valutes) ∧
    (usdFromValutes vs =
      match vs.find? (fun v => v.CharCode == "USD") with
      | some v =>
        match parseRate v.Value with
        | .ok q => .ok q
        | .error e => .error (.parse e)
      | none => .error .notFound) ∧
    usdFromValutes [⟨"EUR", "100,00"⟩, ⟨"USD", "91,23"⟩] = .ok (9123 / 100) := by
  refine ⟨?_, ?_, ?_⟩
  · intro h
    unfold GetUsdRate
    rcases hfx : fetchXML c now dailyRatesURL net with ⟨r, c1, n⟩
    rw [hfx] at h
    simp only at h
    subst h
    rfl
  · induction vs with
    | nil => rfl
    | cons v rest ih =>
      simp only [usdFromValutes, List.find?_cons]
      by_cases hv : v.CharCode = "USD"
      · simp [hv]
      · simp only [if_neg hv, ih]
        have : (v.CharCode == "USD") = false := by simp [hv]
        rw [this]
  · simp [usdFromValutes, parseRate, parseFloatQ, takeDigits, splitSign,
      digitsToNat, replaceFirstComma]
    norm_num

/-- Witness for C6: a cached snapshot with a EUR entry before the USD one
makes `GetUsdRate` return exactly `91.23`. -/
theorem getUsdRate_spec_witness :
    (GetUsdRate (NewCache.Set 0 dailyRatesURL
        ⟨"02.01.2024", [⟨"EUR", "100,00"⟩, ⟨"USD", "91,23"⟩], []⟩ 3600) 0
        .doFail).1 = .ok (9123 / 100) := by
  have hhit : (NewCache.Set 0 dailyRatesURL
      (⟨"02.01.2024", [⟨"EUR", "100,00"⟩, ⟨"USD", "91,23"⟩], []⟩ : ValCurs)
      3600).Get 0 dailyRatesURL =
      some ⟨"02.01.2024", [⟨"EUR", "100,00"⟩, ⟨"USD", "91,23"⟩], []⟩ :=
    Cache.Get_after_Set _ 0 0 _ _ 3600 (by norm_num)
  have h := getUsdRate_spec (NewCache.Set 0 dailyRatesURL
      ⟨"02.01.2024", [⟨"EUR", "100,00"⟩, ⟨"USD", "91,23"⟩], []⟩ 3600) 0 .doFail
      ⟨"02.01.2024", [⟨"EUR", "100,00"⟩, ⟨"USD", "91,23"⟩], []⟩ []
  rw [h.1 (by rw [fetchXML_hit _ 0 dailyRatesURL .doFail _ hhit]), h.2.2]

/-- Claim C7: the history mapping keeps each record's date paired with its
parsed rate, in order, and drops exactly the records whose raw value fails
to parse — it is the `filterMap` of the parser over the records — and on
the three-record document with a malformed middle entry it yields the two
well-formed points. -/
theorem historyFromRecords_spec :
    (∀ rs : List Record, historyFromRecords rs = rs.filterMap (fun r =>
      match parseRate r.Value with
      | .ok q => some ⟨r.Date, q⟩
      | .error _ => none)) ∧
    historyFromRecords
      [⟨"01.01.2024", "91,00"⟩, ⟨"02.01.2024", "bad"⟩, ⟨"03.01.2024", "92,50"⟩] =
      [⟨"01.01.2024", 91⟩, ⟨"03.01.2024", 185 / 2⟩] := by
  constructor
  · intro rs
    induction rs with
    | nil => rfl
    | cons r rest ih =>
      simp only [historyFromRecords, List.filterMap_cons]
      cases parseRate r.Value <;> simp [ih]
  · simp [historyFromRecords, parseRate, parseFloatQ, takeDigits, splitSign,
      digitsToNat, replaceFirstComma]
    norm_num

/-- Claim C8: the rate parser normalizes the first comma to a dot and
parses the result as a decimal number — `parse("91,23") = 91.23`,
`parse("91.23") = 91.23`, while `parse("abc")` and `parse("")` fail with a
parse error (and, being a total function, never panic). -/
theorem parseRate_spec :
    (∀ s : String, parseRate s = parseFloatQ (String.mk (replaceFirstComma s.data))) ∧
    parseRate "91,23" = .ok (9123 / 100) ∧
    parseRate "91.23" = .ok (9123 / 100) ∧
    parseRate "abc" = .error .invalid ∧
    parseRate "" = .error .invalid := by
  refine ⟨fun s => rfl, ?_, ?_, ?_, ?_⟩ <;>
    simp [parseRate, parseFloatQ, takeDigits, splitSign, digitsToNat,
      replaceFirstComma] <;> norm_num

/-- Claim C9: `GetUsdRatesHistory` queries the range from seven days before
today through today — the URL is the fixed template around the renderings
of civil days `today - 7` and `today` — and both bounds are formatted as
`DD.MM.YYYY`: they match the ten-character dotted-digit shape, and (for
years up to 9999, where four year digits suffice) the digit groups denote
exactly the day, month and year of the two dates. -/
theorem history_url_dates (today : Nat) (h7 : 7 ≤ today)
    (hyEnd : (civilFromDays today).1 ≤ 9999)
    (hyStart : (civilFromDays (today - 7)).1 ≤ 9999) :
    historyURL today =
      dynamicRatesURLHead ++ historyStartDate today ++ dynamicRatesURLMid ++
        historyEndDate today ++ dynamicRatesURLTail ∧
    historyStartDate today = formatDate02012006 (civilFromDays (today - 7)) ∧
    historyEndDate today = formatDate02012006 (civilFromDays today) ∧
    today - 7 + 7 = today ∧
    matchesDDMMYYYY (historyStartDate today) = true ∧
    matchesDDMMYYYY (historyEndDate today) = true ∧
    digitsToNat (pad2 (civilFromDays (today - 7)).2.2) = (civilFromDays (today - 7)).2.2 ∧
    digitsToNat (pad2 (civilFromDays (today - 7)).2.1) = (civilFromDays (today - 7)).2.1 ∧
    digitsToNat (pad4 (civilFromDays (today - 7)).1) = (civilFromDays (today - 7)).1 ∧
    digitsToNat (pad2 (civilFromDays today).2.2) = (civilFromDays today).2.2 ∧
    digitsToNat (pad2 (civilFromDays today).2.1) = (civilFromDays today).2.1 ∧
    digitsToNat (pad4 (civilFromDays today).1) = (civilFromDays today).1 := by
  have hbS := civilFromDays_bounds (today - 7)
  have hbE := civilFromDays_bounds today
  refine ⟨rfl, rfl, rfl, by omega, matchesDDMMYYYY_format _,
    matchesDDMMYYYY_format _, ?_, ?_, ?_, ?_, ?_, ?_⟩
  · exact digitsToNat_pad2 _ (by omega)
  · exact digitsToNat_pad2 _ (by omega)
  · exact digitsToNat_pad4 _ hyStart
  · exact digitsToNat_pad2 _ (by omega)
  · exact digitsToNat_pad2 _ (by omega)
  · exact digitsToNat_pad4 _ hyEnd

/-- Witness for C9 on civil day 19730 (2024-01-08): range 01.01.2024 to
08.01.2024. -/
theorem history_url_dates_witness :
    historyURL 19730 =
      dynamicRatesURLHead ++ historyStartDate 19730 ++ dynamicRatesURLMid ++
        historyEndDate 19730 ++ dynamicRatesURLTail ∧
    matchesDDMMYYYY (historyStartDate 19730) = true ∧
    matchesDDMMYYYY (historyEndDate 19730) = true :=
  ⟨(history_url_dates 19730 (by norm_num) (by decide) (by decide)).1,
   (history_url_dates 19730 (by norm_num) (by decide) (by decide)).2.2.2.2.1,
   (history_url_dates 19730 (by norm_num) (by decide) (by decide)).2.2.2.2.2.1⟩

/-- Claim C10: whenever the underlying fetch of the historical document
succeeds, `GetUsdRatesHistory` returns `ok` — never an error — with the
mapped records; in particular when the document has no records or every
record's value fails to parse, it returns the empty sequence with no
error. -/
theorem history_fetch_ok (c : Cache ValCurs) (now : Int) (today : Nat)
    (net : NetBehavior) (doc : ValCurs)
    (h : (fetchXML c now (historyURL today) net).1 = .ok doc) :
    (GetUsdRatesHistory c now today net).1 =
      .ok (historyFromRecords doc.Records) ∧
    ((∀ r ∈ doc.Records, parseRate r.Value = .error .invalid) →
      (GetUsdRatesHistory c now today net).1 = .ok ([] : List RateHistory)) := by
  have hmain : (GetUsdRatesHistory c now today net).1 =
      .ok (historyFromRecords doc.Records) := by
    unfold GetUsdRatesHistory
    rcases hfx : fetchXML c now (historyURL today) net with ⟨r, c1, n⟩
    rw [hfx] at h
    simp only at h
    subst h
    rfl
  refine ⟨hmain, fun hall => ?_⟩
  rw [hmain, historyFromRecords_nil_of_all_fail doc.Records hall]

/-- Witness for C10: a successful fetch of a document whose single record
is malformed yields the empty history and no error. -/
theorem history_fetch_ok_witness :
    (GetUsdRatesHistory NewCache 0 19730
      (.resp httpStatusOK (.ok ⟨"", [], [⟨"02.01.2024", "bad"⟩]⟩))).1 =
      .ok ([] : List RateHistory) := by
  have hfetch : (fetchXML NewCache 0 (historyURL 19730)
      (.resp httpStatusOK (.ok ⟨"", [], [⟨"02.01.2024", "bad"⟩]⟩))).1 =
      .ok ⟨"", [], [⟨"02.01.2024", "bad"⟩]⟩ := by
    rw [fetchXML_miss_resp_ok NewCache 0 (historyURL 19730)
      ⟨"", [], [⟨"02.01.2024", "bad"⟩]⟩ rfl]
  refine (history_fetch_ok _ 0 19730 _ _ hfetch).2 ?_
  intro r hr
  simp at hr
  subst hr
  simp [parseRate, parseFloatQ, takeDigits, splitSign, digitsToNat,
    replaceFirstComma]

end UsdRateChart
